import Mathlib

/-!
Verification of the Medi-OS repository's specification against its code.

The Python sources are shallowly embedded in Lean:
* numeric values use `Int` and `ℚ` (Python ints and true division);
* `numpy.random` is modelled as a deterministic stream of naturals fully
  determined by the seed and the position in the stream (which is exactly
  the property of a seeded PRNG the spec's claims rely on); the concrete
  mixing function is an arbitrary fixed function;
* pandas dataframes are modelled column-oriented as association lists from
  column names to lists of values;
* library calls whose outcome the repository does not control (HTTP posts,
  `SMOTE.fit_resample`, fitted scikit-learn model predictions, file writes)
  are oracle parameters, fallible ones of type `Except String _`, so that a
  Python exception raised inside a `try` block is an explicit `.error` value.
-/

namespace MediOS

/-! ## Model of `numpy.random`: a seed-determined deterministic stream -/

/-- State of the (global) numpy PRNG: the seed last planted with
`np.random.seed` and the position in the draw stream. -/
structure NPRandom where
  seed : Nat
  pos : Nat
  deriving Repr, DecidableEq

/-- `np.random.seed n`. -/
def npSeed (n : Nat) : NPRandom := ⟨n, 0⟩

/-- Fixed mixing function standing for the PRNG's raw output at a stream
position; any concrete function works, determinism is what matters. -/
def mix (seed pos : Nat) : Nat :=
  (seed * 6364136223846793005 + pos * 1442695040888963407 + 1013904223) % 4294967296

/-- `np.random.randint(lo, hi, n)`: `n` integer draws in `[lo, hi)`. -/
def randintArr (lo hi : Int) (n : Nat) (s : NPRandom) : List Int × NPRandom :=
  ((List.range n).map (fun j => lo + (Int.ofNat (mix s.seed (s.pos + j))) % (hi - lo)),
   ⟨s.seed, s.pos + n⟩)

/-- `np.random.uniform(lo, hi, n)`: `n` rational draws in `[lo, hi)`. -/
def uniformArr (lo hi : ℚ) (n : Nat) (s : NPRandom) : List ℚ × NPRandom :=
  ((List.range n).map (fun j => lo + (hi - lo) * ((mix s.seed (s.pos + j) % 1000 : Nat) / 1000 : ℚ)),
   ⟨s.seed, s.pos + n⟩)

/-- `np.random.uniform(lo, hi)`: a single draw in `[lo, hi)`. -/
def npUniform (lo hi : ℚ) (s : NPRandom) : ℚ × NPRandom :=
  (lo + (hi - lo) * ((mix s.seed s.pos % 1000 : Nat) / 1000 : ℚ), ⟨s.seed, s.pos + 1⟩)

/-- `np.random.normal(mu, sigma, n)`: `n` rational draws, modelled as
`mu + sigma * u` with `u ∈ [-1, 1]` from the stream. -/
def normalArr (mu sigma : ℚ) (n : Nat) (s : NPRandom) : List ℚ × NPRandom :=
  ((List.range n).map (fun j =>
      mu + sigma * (((mix s.seed (s.pos + j) % 2001 : Nat) : ℚ) - 1000) / 1000),
   ⟨s.seed, s.pos + n⟩)

/-- `np.random.choice(options, n)`: `n` picks from a list of options. -/
def choiceArr (options : List String) (n : Nat) (s : NPRandom) : List String × NPRandom :=
  ((List.range n).map (fun j => options.getD (mix s.seed (s.pos + j) % options.length) ""),
   ⟨s.seed, s.pos + n⟩)

/-- `np.random.choice([True, False], n)`. -/
def boolArr (n : Nat) (s : NPRandom) : List Bool × NPRandom :=
  ((List.range n).map (fun j => mix s.seed (s.pos + j) % 2 = 0), ⟨s.seed, s.pos + n⟩)

/-- `np.random.choice(n, k, replace=False)`: `k` distinct indices below `n`. -/
def choiceNoReplace (n k : Nat) (s : NPRandom) : List Nat × NPRandom :=
  ((List.range k).map (fun j => (mix s.seed s.pos + j) % n), ⟨s.seed, s.pos + 1⟩)

/-! ## `backend/src/ml/manage_agent.py`: `ManageAgent` -/

/-- The six numeric fields `predict_wait_time` reads from its `queue_state`
argument. -/
structure QueueState where
  queue_length : Int
  staff_available : Int
  rooms_available : Int
  hour_of_day : Int
  day_of_week : Int
  current_wait_time : Int
  deriving Repr, DecidableEq

/-- `ManageAgent._calculate_confidence`:
`max(0.6, min(0.95, 1 - (queue_length / 20)))`. -/
def calculateConfidence (queue_length : Int) : ℚ :=
  max (6/10 : ℚ) (min (95/100 : ℚ) (1 - (queue_length : ℚ) / 20))

/-- Python `int(x)`: truncation toward zero. -/
def pyInt (x : ℚ) : Int :=
  if 0 ≤ x then ⌊x⌋ else -⌊-x⌋

/-- The dict returned by `ManageAgent.predict_wait_time`. -/
structure WaitPrediction where
  predicted_wait_time : Int
  confidence : ℚ
  queue_position : Int
  estimated_wait_time : String
  deriving Repr, DecidableEq

/-- `ManageAgent.predict_wait_time`.  The raw output of the fitted
`RandomForestRegressor` on the scaled feature vector is the oracle
`rawPred`; everything after that call is translated from the source. -/
def predictWaitTime (qs : QueueState) (rawPred : ℚ) : WaitPrediction :=
  { predicted_wait_time := pyInt (max 5 (min rawPred 180))
    confidence := calculateConfidence qs.queue_length
    queue_position := qs.queue_length
    estimated_wait_time := toString (pyInt (max 5 (min rawPred 180))) ++ " minutes" }

/-- The per-row triage-level heuristic in
`ManageAgent._generate_synthetic_data` (the loop body over `i`). -/
def computeTriageLevel (age urgency : Int) (complexity : ℚ)
    (consciousness : String) (pain : Int) : Int :=
  let b1 := urgency
  let b2 := if age > 65 then min 5 (b1 + 1) else b1
  let b3 := if complexity > 5 then min 5 (b2 + 1) else b2
  let b4 :=
    if consciousness = "Unresponsive" then 5
    else if consciousness = "Confused" then min 5 (b3 + 1)
    else b3
  if pain > 8 then min 5 (b4 + 1) else b4

def departments : List String :=
  ["Cardiology", "Orthopedics", "Neurology", "Emergency", "General"]

def consciousnessLevels : List String := ["Alert", "Confused", "Unresponsive"]

/-- The `queue_data` dataframe of `_generate_synthetic_data`. -/
structure QueueData where
  queue_length : List Int
  staff_available : List Int
  rooms_available : List Int
  hour_of_day : List Int
  day_of_week : List Int
  current_wait_time : List Int
  department : List String
  predicted_wait_time : List ℚ
  deriving Repr, DecidableEq

/-- The `triage_data` dataframe of `_generate_synthetic_data`. -/
structure TriageData where
  age : List Int
  urgency_level : List Int
  medical_complexity : List ℚ
  symptoms_count : List Int
  vital_signs_stable : List Bool
  consciousness_level : List String
  pain_level : List Int
  department : List String
  final_triage_level : List Int
  deriving Repr, DecidableEq

/-- `ManageAgent._generate_synthetic_data(n_samples)`.  It receives the
global numpy PRNG state and returns it alongside the two dataframes; the
first statement of the body is `np.random.seed(42)`, so the incoming state
`_rng` is overwritten and never read. -/
def generateSyntheticData (n : Nat) (_rng : NPRandom) :
    QueueData × TriageData × NPRandom :=
  let s0 := npSeed 42
  let (queue_length, s1) := randintArr 1 50 n s0
  let (staff_available, s2) := randintArr 1 15 n s1
  let (rooms_available, s3) := randintArr 1 20 n s2
  let (hour_of_day, s4) := randintArr 0 24 n s3
  let (day_of_week, s5) := randintArr 0 7 n s4
  let (current_wait_time, s6) := randintArr 5 120 n s5
  let (department_q, s7) := choiceArr departments n s6
  let (noise0, s8) := normalArr 0 15 n s7
  let k := n / 50
  let (outlierIndices, s9) := choiceNoReplace n k s8
  let (outlierAdd, s10) := normalArr 60 20 k s9
  let noise := (outlierIndices.zip outlierAdd).foldl
      (fun ns p => ns.set p.1 (ns.getD p.1 0 + p.2)) noise0
  let wait := (List.range n).map (fun i =>
      let q : ℚ := ((queue_length.getD i 0 : Int) : ℚ)
      let st : ℚ := ((staff_available.getD i 0 : Int) : ℚ)
      let h := hour_of_day.getD i 0
      let d := day_of_week.getD i 0
      let baseWait := q * 15
      let staffFactor := max (1/2 : ℚ) (min 2 (5 / st))
      let timeFactor : ℚ :=
        if h < 9 ∨ h > 17 then 7/10
        else if 10 ≤ h ∧ h ≤ 14 then 13/10
        else 1
      let dayFactor : ℚ := if d ≥ 5 then 8/10 else 1
      max 5 (min 180 (baseWait * staffFactor * timeFactor * dayFactor + noise.getD i 0)))
  let (age, t1) := randintArr 1 95 n s10
  let (urgency_level, t2) := randintArr 1 6 n t1
  let (medical_complexity, t3) := uniformArr 1 10 n t2
  let (symptoms_count, t4) := randintArr 1 8 n t3
  let (vital_signs_stable, t5) := boolArr n t4
  let (consciousness_level, t6) := choiceArr consciousnessLevels n t5
  let (pain_level, t7) := randintArr 0 11 n t6
  let (department_t, t8) := choiceArr departments n t7
  let finalLevels := (List.range n).map (fun i =>
      computeTriageLevel (age.getD i 0) (urgency_level.getD i 0)
        (medical_complexity.getD i 0) (consciousness_level.getD i "")
        (pain_level.getD i 0))
  ({ queue_length := queue_length
     staff_available := staff_available
     rooms_available := rooms_available
     hour_of_day := hour_of_day
     day_of_week := day_of_week
     current_wait_time := current_wait_time
     department := department_q
     predicted_wait_time := wait },
   { age := age
     urgency_level := urgency_level
     medical_complexity := medical_complexity
     symptoms_count := symptoms_count
     vital_signs_stable := vital_signs_stable
     consciousness_level := consciousness_level
     pain_level := pain_level
     department := department_t
     final_triage_level := finalLevels },
   t8)

/-! ## A column-oriented model of pandas dataframes -/

/-- A cell value of a dataframe. -/
inductive Val where
  | s (v : String)
  | i (v : Int)
  | q (v : ℚ)
  | b (v : Bool)
  | nan
  deriving Repr, DecidableEq

/-- Lookup of a column by name in an association list (pandas column access
`df[c]`; the Python `KeyError` on a missing column is handled at use sites). -/
def getA : List (String × List Val) → String → List Val
  | [], _ => []
  | p :: rest, c => if p.1 = c then p.2 else getA rest c

/-- `c in df.columns`. -/
def hasA : List (String × List Val) → String → Bool
  | [], _ => false
  | p :: rest, c => if p.1 = c then true else hasA rest c

/-- Overwrite an existing column in place. -/
def replaceA : List (String × List Val) → String → List Val → List (String × List Val)
  | [], _, _ => []
  | p :: rest, c, vs => (if p.1 = c then (c, vs) else p) :: replaceA rest c vs

/-- Column assignment `df[c] = vs`: overwrite in place when the column
exists, append a new column otherwise. -/
def setA (l : List (String × List Val)) (c : String) (vs : List Val) :
    List (String × List Val) :=
  if hasA l c then replaceA l c vs else l ++ [(c, vs)]

/-- A dataframe: named columns in order. -/
structure Frame where
  cols : List (String × List Val)
  deriving Repr, DecidableEq

def Frame.getCol (f : Frame) (c : String) : List Val := getA f.cols c

def Frame.hasCol (f : Frame) (c : String) : Bool := hasA f.cols c

def Frame.setCol (f : Frame) (c : String) (vs : List Val) : Frame :=
  ⟨setA f.cols c vs⟩

def Frame.colNames (f : Frame) : List String := f.cols.map Prod.fst

/-- `len(df)`: the length of the index, the first column's length here. -/
def Frame.nRows (f : Frame) : Nat :=
  match f.cols with
  | [] => 0
  | p :: _ => p.2.length

/-- `df.iloc[:m]`. -/
def Frame.takeRows (f : Frame) (m : Nat) : Frame :=
  ⟨f.cols.map (fun p => (p.1, p.2.take m))⟩

/-- `df.iloc[idxs]`. -/
def Frame.selectRows (f : Frame) (idxs : List Nat) : Frame :=
  ⟨f.cols.map (fun p => (p.1, idxs.map (fun i => p.2.getD i Val.nan)))⟩

/-- First-occurrence list of the distinct values of a column. -/
def uniqueInOrder (vs : List Val) : List Val :=
  vs.foldl (fun acc v => if v ∈ acc then acc else acc ++ [v]) []

/-- `series.value_counts()`: distinct values with their counts (pandas sorts
by descending count; no claim depends on the order, first occurrence is
used here). -/
def valueCounts (vs : List Val) : List (Val × Nat) :=
  (uniqueInOrder vs).map (fun v => (v, vs.count v))

/-! ## `backend/src/ml/step10_dataset_preparation.py`: `DatasetPreparation` -/

/-- `bias_config['sensitive_attributes']`. -/
def sensitiveAttributes : List String := ["caste", "state", "gender"]

/-- `bias_config['target_threshold']` (3% bias threshold). -/
def targetThreshold : ℚ := 3/100

/-- `bias_config['protected_groups']`. -/
def protectedGroups (attrName : String) : List String :=
  if attrName = "caste" then ["SC", "ST", "OBC"]
  else if attrName = "state" then ["Bihar", "Jharkhand", "Odisha", "Chhattisgarh"]
  else if attrName = "gender" then ["Female"]
  else []

/-- The kind of entry appended to `bias_issues` (the formatted message
`f"{group}: {percentage:.1f}% (underrepresented)"` is presentation; which
group is flagged and as what is what the flag logic decides). -/
inductive BiasKind where
  | underrepresented
  | overrepresented
  deriving Repr, DecidableEq

/-- The dict returned by `DatasetPreparation._analyze_bias` on the normal
path (representation percentages are kept exact instead of
`round(x, 2)`-presented). -/
structure BiasAnalysisOut where
  total_records : Nat
  unique_values : Nat
  representation : List (Val × Nat × ℚ)
  bias_issues : List (String × BiasKind)
  protected_groups : List String
  deriving Repr, DecidableEq

inductive AnalyzeResult where
  | err (msg : String)
  | ok (r : BiasAnalysisOut)
  deriving Repr, DecidableEq

/-- `DatasetPreparation._analyze_bias(df, attribute)`. -/
def analyzeBias (df : Frame) (attrName : String) : AnalyzeResult :=
  if df.hasCol attrName = false then
    .err ("Attribute " ++ attrName ++ " not found")
  else
    let counts := valueCounts (df.getCol attrName)
    let total := (df.getCol attrName).length
    let representation := counts.map (fun p =>
      (p.1, p.2, ((p.2 : ℚ) / (total : ℚ)) * 100))
    let issues := (protectedGroups attrName).filterMap (fun group =>
      match counts.lookup (Val.s group) with
      | none => none
      | some count =>
        let percentage := ((count : ℚ) / (total : ℚ)) * 100
        if percentage < 10 then some (group, BiasKind.underrepresented)
        else if percentage > 50 then some (group, BiasKind.overrepresented)
        else none)
    .ok { total_records := total
          unique_values := counts.length
          representation := representation
          bias_issues := issues
          protected_groups := protectedGroups attrName }

/-- An entry of the dict returned by `run_bias_analysis`: either a
per-attribute report or the `str(e)` of a caught exception. -/
inductive BiasEntry where
  | report (r : AnalyzeResult)
  | msg (e : String)
  deriving Repr, DecidableEq

/-- `DatasetPreparation.run_bias_analysis(df)`.  Building the per-attribute
reports is pure; the only operation in the `try` block that can raise is
saving `bias_analysis.json`, the oracle `saveOutcome`.  The `except` branch
returns `{'error': str(e)}`. -/
def runBiasAnalysis (df : Frame) (saveOutcome : Except String Unit) :
    List (String × BiasEntry) :=
  let results := sensitiveAttributes.filterMap (fun a =>
    if df.hasCol a then some (a, BiasEntry.report (analyzeBias df a)) else none)
  match saveOutcome with
  | .ok _ => results
  | .error e => [("error", BiasEntry.msg e)]

/-- `categorical_cols` in `apply_smote_augmentation`. -/
def categoricalCols : List String :=
  ["caste", "state", "gender", "department", "dataset_source"]

/-- `series.fillna('Unknown')`. -/
def fillNaUnknown (vs : List Val) : List Val :=
  vs.map (fun v => if v = Val.nan then Val.s "Unknown" else v)

/-- `series.fillna(0)`. -/
def fillNaZero (vs : List Val) : List Val :=
  vs.map (fun v => if v = Val.nan then Val.i 0 else v)

/-- The classes of `LabelEncoder().fit(vs)` (sklearn sorts its classes;
first-occurrence order is used here, which no claim depends on). -/
def encoderClasses (vs : List Val) : List Val :=
  uniqueInOrder (fillNaUnknown vs)

/-- `LabelEncoder().fit_transform(vs)`: each value's code. -/
def labelEncode (vs : List Val) : List Int :=
  let vs' := fillNaUnknown vs
  let classes := encoderClasses vs
  vs'.map (fun v => (classes.indexOf v : Int))

/-- `encoder.inverse_transform(codes)`. -/
def labelDecode (classes : List Val) (codes : List Val) : List Val :=
  codes.map (fun c =>
    match c with
    | Val.i v => classes.getD v.toNat Val.nan
    | _ => Val.nan)

/-- The argument pair of a `SMOTE.fit_resample(X, y)` call. -/
structure SmoteCall where
  X : List (String × List Val)
  y : List Val
  deriving Repr, DecidableEq

/-- The value returned by a successful `SMOTE.fit_resample`: the resampled
feature matrix by column, with `n` resampled rows. -/
structure SmoteResult where
  n : Nat
  cols : List (String × List Val)
  deriving Repr, DecidableEq

/-- The observable outcome of `apply_smote_augmentation`: the returned
dataframe, the final `results['smote_applied']`, and the list of
`fit_resample` calls issued. -/
structure SmoteOut where
  frame : Frame
  applied : Bool
  calls : List SmoteCall
  deriving Repr, DecidableEq

/-- `df_encoded` in `apply_smote_augmentation`: the input plus a
`{col}_encoded` column per categorical column present. -/
def dfEncodedOf (df : Frame) : Frame :=
  categoricalCols.foldl (fun d c =>
    if df.hasCol c then d.setCol (c ++ "_encoded") ((labelEncode (df.getCol c)).map Val.i)
    else d) df

/-- `feature_cols` in `apply_smote_augmentation`. -/
def featureColsOf (df : Frame) : List String :=
  (dfEncodedOf df).colNames.filter (fun c =>
    c.endsWith "_encoded" ||
      (c = "age" || c = "medical_complexity" || c = "urgency_level" || c = "cost"))

/-- The `(X, y)` argument pair handed to `SMOTE.fit_resample`:
`X = df_encoded[feature_cols].fillna(0)` and
`y = df_encoded['caste_encoded']`. -/
def smoteCallOf (df : Frame) : SmoteCall :=
  { X := (featureColsOf df).map (fun c => (c, fillNaZero ((dfEncodedOf df).getCol c)))
    y := (dfEncodedOf df).getCol "caste_encoded" }

/-- The augmented dataframe built in the success branch of the `try` block:
`df_encoded.iloc[:len(X_resampled)]`, feature columns overwritten by the
resampled matrix, categorical columns decoded back, encoded columns
dropped. -/
def augmentedOf (df : Frame) (res : SmoteResult) : Frame :=
  let aug0 := (dfEncodedOf df).takeRows res.n
  let aug1 := (featureColsOf df).foldl (fun d c =>
    d.setCol c ((res.cols.lookup c).getD [])) aug0
  let aug2 := categoricalCols.foldl (fun d c =>
    if df.hasCol c then
      d.setCol c (labelDecode (encoderClasses (df.getCol c)) (d.getCol (c ++ "_encoded")))
    else d) aug1
  ⟨aug2.cols.filter (fun p =>
    ¬ (p.1 ∈ featureColsOf df ∧ p.1.endsWith "_encoded"))⟩

/-- `DatasetPreparation.apply_smote_augmentation(df)`.  The library call
`SMOTE(random_state=42, k_neighbors=3).fit_resample` is the oracle `smote`;
its `.error` case is a raised exception, caught by the `except` branch that
returns the input dataframe with `results['smote_applied'] = False`.  The
code before the `try` block raises `KeyError` when the input has no `caste`
column (then `df_encoded['caste_encoded']` does not exist), which is the
outer `.error` case. -/
def applySmoteAugmentation (df : Frame)
    (smote : SmoteCall → Except String SmoteResult) :
    Except String SmoteOut :=
  if df.hasCol "caste" = false then
    Except.error "KeyError: caste_encoded"
  else
    match smote (smoteCallOf df) with
    | .error _ =>
      Except.ok { frame := df, applied := false, calls := [smoteCallOf df] }
    | .ok res =>
      Except.ok { frame := augmentedOf df res, applied := true,
                  calls := [smoteCallOf df] }

/-- `if 'patient_id' not in df.columns: df['patient_id'] = f"{name}_" +
df.index.astype(str)` (the index of a freshly loaded frame is `0..n-1`). -/
def addPatientId (name : String) (df : Frame) : Frame :=
  if df.hasCol "patient_id" then df
  else df.setCol "patient_id"
    ((List.range df.nRows).map (fun i => Val.s (name ++ "_" ++ toString i)))

/-- `if c not in df.columns: df[c] = np.random.randint(lo, hi, len(df))`. -/
def fillIntCol (c : String) (lo hi : Int) (df : Frame) (s : NPRandom) :
    Frame × NPRandom :=
  if df.hasCol c then (df, s)
  else
    let (vs, s') := randintArr lo hi df.nRows s
    (df.setCol c (vs.map Val.i), s')

/-- The per-frame preprocessing in the `merge_datasets` loop: assign the
`patient_id` column when absent, then default-fill `age` and `cost`. -/
def processForMerge (name : String) (df : Frame) (s : NPRandom) :
    Frame × NPRandom :=
  let df1 := addPatientId name df
  let r2 := fillIntCol "age" 18 80 df1 s
  fillIntCol "cost" 1000 50000 r2.1 r2.2

/-- The `for name, df in processed_datasets.items()` loop of
`merge_datasets`, threading the numpy PRNG state. -/
def processAllForMerge : List (String × Frame) → NPRandom → List Frame
  | [], _ => []
  | p :: rest, s =>
    (processForMerge p.1 p.2 s).1 ::
      processAllForMerge rest (processForMerge p.1 p.2 s).2

/-- Union of all column names in order of first appearance (the columns of
`pd.concat`). -/
def unionColNames (frames : List Frame) : List String :=
  frames.foldl (fun acc f =>
    acc ++ (f.colNames.filter (fun c => ¬ c ∈ acc))) []

/-- A frame's column under `pd.concat`: its own values, or `NaN` for the
whole frame when it lacks the column. -/
def Frame.getColOrNan (f : Frame) (c : String) : List Val :=
  if f.hasCol c then f.getCol c else List.replicate f.nRows Val.nan

/-- `pd.concat(frames, ignore_index=True)`. -/
def concatFrames (frames : List Frame) : Frame :=
  ⟨(unionColNames frames).map (fun c => (c, frames.flatMap (fun f => f.getColOrNan c)))⟩

/-- `DatasetPreparation.merge_datasets(processed_datasets)` up to the
returned dataframe (saving the CSV and the results bookkeeping have no
bearing on the frame). -/
def mergeDatasets (frames : List (String × Frame)) (s : NPRandom) : Frame :=
  let processed := processAllForMerge frames s
  let merged := concatFrames processed
  merged.setCol "id" ((List.range merged.nRows).map (fun i => Val.i i))

/-! ## `step11_llama_training.py` -/

/-- `EnhancedDataLoader.bias_threshold`. -/
def biasThreshold11 : ℚ := 3/100

/-- The values of a column that `EnhancedDataLoader.analyze_bias` prints an
"Underrepresented" warning for: normalized `value_counts` shares below
`self.bias_threshold`. -/
def underrepresentedWarnings (vs : List Val) (threshold : ℚ) : List Val :=
  (valueCounts vs).filterMap (fun p =>
    if ((p.2 : ℚ) / (vs.length : ℚ)) < threshold then some p.1 else none)

/-- The warnings printed by `EnhancedDataLoader.analyze_bias(df)`: one list
for the `caste` distribution, one for the `state` distribution. -/
def analyzeBias11 (df : Frame) : List Val × List Val :=
  (underrepresentedWarnings (df.getCol "caste") biasThreshold11,
   underrepresentedWarnings (df.getCol "state") biasThreshold11)

/-- A column is numeric for `df.select_dtypes(include=[np.number])` when
every cell is a number (or `NaN`, a float). -/
def numericCol (vs : List Val) : Bool :=
  vs.all (fun v =>
    match v with
    | Val.i _ => true
    | Val.q _ => true
    | Val.nan => true
    | _ => false)

def numericColNames (f : Frame) : List String :=
  (f.cols.filter (fun p => numericCol p.2)).map Prod.fst

/-- `EnhancedDataLoader.apply_smote_correction(df)`.  `fit_resample` is the
oracle `smoteOutcome`, whose `.ok` value is the `RangeIndex` of the
resampled features (`features_resampled.index`); `df.iloc[...]` with an
index out of range raises, and every exception in the `try` block lands in
the `except` that returns the original dataframe. -/
def applySmoteCorrection (df : Frame) (smoteOutcome : Except String (List Nat)) :
    Frame :=
  if (numericColNames df).length = 0 then df
  else
    match smoteOutcome with
    | .error _ => df
    | .ok idxs =>
      if idxs.all (fun i => i < df.nRows) then df.selectRows idxs
      else df

/-- A request issued by `requests.post` in
`VertexAITrainer.predict_with_endpoint`: the URL, the JSON payload's
prompt, the bearer token of the `Authorization` header, and the `timeout`
keyword argument. -/
structure HttpRequest where
  url : String
  promptSent : String
  bearer : String
  timeout : Nat
  deriving Repr, DecidableEq

/-- The parse of `response.json()`: the `predictions` key when present, and
`str(result)` for the fallback branch. -/
structure HttpJson where
  predictions : Option (List String)
  asString : String
  deriving Repr, DecidableEq

/-- An HTTP response: status code, `response.text`, and the outcome of
`response.json()` (which raises on a non-JSON body). -/
structure HttpResponse where
  statusCode : Int
  text : String
  jsonResult : Except String HttpJson
  deriving Repr

/-- `VertexAITrainer.url` as built in `__init__` from the endpoint id,
project and region. -/
def vertexUrl : String :=
  "https://8172833756491546624.us-central1-497590509824.prediction.vertexai.goog/v1/projects/medi-os-mvp/locations/us-central1/endpoints/8172833756491546624:predict"

/-- `VertexAITrainer.predict_with_endpoint(prompt, token)`.  The network is
the oracle `post` (a raised `requests` exception is `.error`); the result
is the returned string together with the list of requests issued. -/
def predictWithEndpoint (prompt token : String)
    (post : HttpRequest → Except String HttpResponse) : String × List HttpRequest :=
  let req : HttpRequest := { url := vertexUrl, promptSent := prompt, bearer := token, timeout := 30 }
  let result :=
    match post req with
    | .error e => "Error generating response: " ++ e
    | .ok resp =>
      if resp.statusCode = 200 then
        match resp.jsonResult with
        | .error e => "Error generating response: " ++ e
        | .ok j =>
          match j.predictions with
          | some (p :: _) => p
          | some [] => j.asString
          | none => j.asString
      else
        "Error: " ++ toString resp.statusCode ++ " - " ++ resp.text
  (result, [req])

/-! ## `backend/src/ml/make_agent.py`: `MakeAgent.speech_to_text` -/

/-- What the `try` block of `speech_to_text` computes when nothing raises:
the model's prediction and confidence, the preprocessed transcript, and
`datetime.now().isoformat()`. -/
structure SpeechInner where
  isAccurate : Bool
  confidence : ℚ
  validated : String
  timestamp : String
  deriving Repr, DecidableEq

/-- `MakeAgent.speech_to_text(audio_transcript)`.  `modelLoaded` is the
truthiness of `self.models.get('speech_recognition')`; the fallible `try`
block (nltk feature preparation, model predict/predict_proba) is the
oracle `inner`.  The function is total: every raised exception is caught
and flattened to `{'error': str(e)}`. -/
def speechToText (modelLoaded : Bool) (inner : Except String SpeechInner)
    (transcript : String) : List (String × Val) :=
  if modelLoaded = false then
    [("error", Val.s "Speech recognition model not loaded")]
  else
    match inner with
    | .error e => [("error", Val.s e)]
    | .ok r =>
      [("original_transcript", Val.s transcript),
       ("validated_text", Val.s r.validated),
       ("is_accurate", Val.b r.isAccurate),
       ("confidence_score", Val.q r.confidence),
       ("timestamp", Val.s r.timestamp)]

/-! ## `step12_real_llama_finetuning.py` -/

/-- A prepared task dataset (`prompts` plus `labels` for classification). -/
structure TaskData where
  prompts : List String
  labels : List Int
  deriving Repr, DecidableEq

/-- `RealLlamaFineTuner.fine_tune_classification(train_data, val_data,
task_name)` restricted to its metric outputs.  `modelAvailable` is
`self.model is not None`; when the model is unavailable the four metrics
are `np.random.uniform` draws and the data arguments are never read; the
real-training branch's metrics come from the torch loop and
`calculate_real_metrics`, the oracle `realMetrics`. -/
def fineTuneClassification (modelAvailable : Bool) (_trainData _valData : TaskData)
    (realMetrics : ℚ × ℚ × ℚ × ℚ) (s : NPRandom) :
    (ℚ × ℚ × ℚ × ℚ) × NPRandom :=
  if modelAvailable = false then
    let (accuracy, s1) := npUniform (85/100) (97/100) s
    let (f1, s2) := npUniform (80/100) (95/100) s1
    let (precision, s3) := npUniform (75/100) (90/100) s2
    let (recallScore, s4) := npUniform (80/100) (95/100) s3
    ((accuracy, f1, precision, recallScore), s4)
  else
    (realMetrics, s)

/-- The triage dataframe produced by `_generate_synthetic_data`. -/
def syntheticTriage (n : Nat) (rng : NPRandom) : TriageData :=
  (generateSyntheticData n rng).2.1

/-! ## Concrete inputs used by witnesses and the counterexample -/

/-- A network oracle whose single post raises (`requests` exception). -/
def postFail : HttpRequest → Except String HttpResponse :=
  fun _ => Except.error "boom"

/-- A 100-row dataframe whose `caste` column is 5% `SC` and 95% `General`. -/
def dfBias : Frame :=
  ⟨[("caste", List.replicate 1 (Val.s "SC") ++ List.replicate 19 (Val.s "General"))]⟩

/-- The `bias_issues` list of an `_analyze_bias` result. -/
def biasIssuesOf (r : AnalyzeResult) : List (String × BiasKind) :=
  match r with
  | .ok o => o.bias_issues
  | .err _ => []

/-- A small dataframe with a `caste` column. -/
def dfSmall : Frame :=
  ⟨[("caste", [Val.s "General", Val.s "SC"]), ("age", [Val.i 30, Val.i 40])]⟩

/-- A SMOTE oracle whose `fit_resample` raises. -/
def smoteFail : SmoteCall → Except String SmoteResult :=
  fun _ => Except.error "Expected n_neighbors <= n_samples"

/-! ## Helper lemmas -/

lemma getD_range_map (n i : Nat) (h : i < n) {α : Type} (f : Nat → α) (d : α) :
    ((List.range n).map f).getD i d = f i := by
  rw [List.getD_eq_getElem?_getD, List.getElem?_map, List.getElem?_range h]
  rfl

lemma randintArr_getD_bounds (lo hi : Int) (n : Nat) (s : NPRandom) (i : Nat)
    (h : i < n) (hlt : lo < hi) :
    lo ≤ (randintArr lo hi n s).1.getD i 0 ∧ (randintArr lo hi n s).1.getD i 0 < hi := by
  dsimp only [randintArr]
  rw [getD_range_map n i h]
  have h1 : 0 ≤ (Int.ofNat (mix s.seed (s.pos + i))) % (hi - lo) :=
    Int.emod_nonneg _ (by omega)
  have h2 : (Int.ofNat (mix s.seed (s.pos + i))) % (hi - lo) < hi - lo :=
    Int.emod_lt_of_pos _ (by omega)
  omega

lemma npUniform_bounds (lo hi : ℚ) (s : NPRandom) (h : lo < hi) :
    lo ≤ (npUniform lo hi s).1 ∧ (npUniform lo hi s).1 < hi := by
  dsimp only [npUniform]
  generalize mix s.seed s.pos = m
  have hm : m % 1000 < 1000 := Nat.mod_lt _ (by norm_num)
  have h0 : (0:ℚ) ≤ ((m % 1000 : Nat) : ℚ) / 1000 := by positivity
  have h1 : ((m % 1000 : Nat) : ℚ) / 1000 < 1 := by
    rw [div_lt_one (by norm_num : (0:ℚ) < 1000)]
    exact_mod_cast hm
  constructor
  · nlinarith
  · nlinarith

lemma computeTriageLevel_bounds (age urgency : Int) (complexity : ℚ)
    (consciousness : String) (pain : Int) (h1 : 1 ≤ urgency) (h5 : urgency ≤ 5) :
    1 ≤ computeTriageLevel age urgency complexity consciousness pain ∧
    computeTriageLevel age urgency complexity consciousness pain ≤ 5 ∧
    urgency ≤ computeTriageLevel age urgency complexity consciousness pain ∧
    (consciousness = "Unresponsive" →
      computeTriageLevel age urgency complexity consciousness pain = 5) := by
  refine ⟨?_, ?_, ?_, ?_⟩
  · simp only [computeTriageLevel]
    split_ifs <;> omega
  · simp only [computeTriageLevel]
    split_ifs <;> omega
  · simp only [computeTriageLevel]
    split_ifs <;> omega
  · intro hc
    subst hc
    simp only [computeTriageLevel]
    split_ifs <;> omega

lemma getA_replaceA_self : ∀ (l : List (String × List Val)) (c : String)
    (vs : List Val), hasA l c = true → getA (replaceA l c vs) c = vs
  | [], c, vs => by intro h; simp [hasA] at h
  | p :: rest, c, vs => by
    intro h
    by_cases hp : p.1 = c
    · simp [replaceA, getA, hp]
    · have h' : hasA rest c = true := by simpa [hasA, hp] using h
      simp [replaceA, getA, hp, getA_replaceA_self rest c vs h']

lemma getA_replaceA_ne : ∀ (l : List (String × List Val)) (c : String)
    (vs : List Val) (c' : String), c' ≠ c → getA (replaceA l c vs) c' = getA l c'
  | [], _, _, _ => by intro _; rfl
  | p :: rest, c, vs, c' => by
    intro hne
    by_cases hp : p.1 = c
    · have hcc : ¬ (c = c') := fun e => hne e.symm
      have hpc : ¬ (p.1 = c') := by rw [hp]; exact hcc
      simp [replaceA, getA, hp, hcc, hpc, getA_replaceA_ne rest c vs c' hne]
    · simp [replaceA, getA, hp, getA_replaceA_ne rest c vs c' hne]

lemma hasA_replaceA : ∀ (l : List (String × List Val)) (c : String)
    (vs : List Val) (c' : String), hasA (replaceA l c vs) c' = hasA l c'
  | [], _, _, _ => rfl
  | p :: rest, c, vs, c' => by
    by_cases hp : p.1 = c
    · simp [replaceA, hasA, hp, hasA_replaceA rest c vs c']
    · simp [replaceA, hasA, hp, hasA_replaceA rest c vs c']

lemma getA_nil_of_not_has : ∀ (l : List (String × List Val)) (c : String),
    hasA l c = false → getA l c = []
  | [], _ => by intro _; rfl
  | p :: rest, c => by
    intro h
    have hp : ¬ (p.1 = c) := by
      intro e
      simp [hasA, e] at h
    have h' : hasA rest c = false := by simpa [hasA, hp] using h
    simp [getA, hp, getA_nil_of_not_has rest c h']

lemma getA_append_not_has : ∀ (l : List (String × List Val)) (c : String)
    (l₂ : List (String × List Val)), hasA l c = false →
    getA (l ++ l₂) c = getA l₂ c
  | [], _, _ => by intro _; rfl
  | p :: rest, c, l₂ => by
    intro h
    have hp : ¬ (p.1 = c) := by
      intro e
      simp [hasA, e] at h
    have h' : hasA rest c = false := by simpa [hasA, hp] using h
    simp [getA, hp, getA_append_not_has rest c l₂ h']

lemma getA_append_has : ∀ (l : List (String × List Val)) (c : String)
    (l₂ : List (String × List Val)), hasA l c = true →
    getA (l ++ l₂) c = getA l c
  | [], c, l₂ => by intro h; simp [hasA] at h
  | p :: rest, c, l₂ => by
    intro h
    by_cases hp : p.1 = c
    · simp [getA, hp]
    · have h' : hasA rest c = true := by simpa [hasA, hp] using h
      simp [getA, hp, getA_append_has rest c l₂ h']

lemma hasA_append : ∀ (l₁ l₂ : List (String × List Val)) (c : String),
    hasA (l₁ ++ l₂) c = (hasA l₁ c || hasA l₂ c)
  | [], _, _ => rfl
  | p :: rest, l₂, c => by
    by_cases hp : p.1 = c
    · simp [hasA, hp]
    · simp [hasA, hp, hasA_append rest l₂ c]

lemma getA_setA_self (l : List (String × List Val)) (c : String) (vs : List Val) :
    getA (setA l c vs) c = vs := by
  unfold setA
  by_cases h : hasA l c = true
  · rw [if_pos h]
    exact getA_replaceA_self l c vs h
  · rw [if_neg h]
    rw [getA_append_not_has l c _ (by simpa using h)]
    simp [getA]

lemma getA_setA_ne (l : List (String × List Val)) (c : String) (vs : List Val)
    (c' : String) (h : c' ≠ c) : getA (setA l c vs) c' = getA l c' := by
  unfold setA
  by_cases hl : hasA l c = true
  · rw [if_pos hl]
    exact getA_replaceA_ne l c vs c' h
  · rw [if_neg hl]
    by_cases hl' : hasA l c' = true
    · exact getA_append_has l c' _ hl'
    · rw [getA_append_not_has l c' _ (by simpa using hl'),
        getA_nil_of_not_has l c' (by simpa using hl')]
      simp only [getA]
      rw [if_neg (fun e => h (Eq.symm e))]

lemma hasA_setA_self (l : List (String × List Val)) (c : String) (vs : List Val) :
    hasA (setA l c vs) c = true := by
  unfold setA
  by_cases h : hasA l c = true
  · rw [if_pos h, hasA_replaceA]
    exact h
  · rw [if_neg h, hasA_append]
    simp [hasA]

lemma hasA_setA_ne (l : List (String × List Val)) (c : String) (vs : List Val)
    (c' : String) (h : c' ≠ c) : hasA (setA l c vs) c' = hasA l c' := by
  unfold setA
  by_cases hl : hasA l c = true
  · rw [if_pos hl]
    exact hasA_replaceA l c vs c'
  · rw [if_neg hl, hasA_append]
    have hsingle : hasA [(c, vs)] c' = false := by
      simp only [hasA]
      rw [if_neg (fun e => h (Eq.symm e))]
    rw [hsingle, Bool.or_false]

lemma Frame.getCol_setCol_self (f : Frame) (c : String) (vs : List Val) :
    (f.setCol c vs).getCol c = vs := getA_setA_self f.cols c vs

lemma Frame.getCol_setCol_ne (f : Frame) (c : String) (vs : List Val)
    (c' : String) (h : c' ≠ c) : (f.setCol c vs).getCol c' = f.getCol c' :=
  getA_setA_ne f.cols c vs c' h

lemma Frame.hasCol_setCol_self (f : Frame) (c : String) (vs : List Val) :
    (f.setCol c vs).hasCol c = true := hasA_setA_self f.cols c vs

lemma Frame.hasCol_setCol_ne (f : Frame) (c : String) (vs : List Val)
    (c' : String) (h : c' ≠ c) : (f.setCol c vs).hasCol c' = f.hasCol c' :=
  hasA_setA_ne f.cols c vs c' h

lemma getA_map_pair : ∀ (names : List String) (F : String → List Val)
    (c : String), c ∈ names → getA (names.map (fun c' => (c', F c'))) c = F c
  | [], _, _ => by intro h; cases h
  | a :: rest, F, c => by
    intro h
    by_cases hac : a = c
    · simp [getA, hac]
    · have hr : c ∈ rest := by
        rcases List.mem_cons.mp h with e | hr
        · exact absurd e.symm hac
        · exact hr
      simp [getA, hac, getA_map_pair rest F c hr]

lemma mem_foldl_union_acc : ∀ (fs : List Frame) (acc : List String) (c : String),
    c ∈ acc →
    c ∈ fs.foldl (fun acc f => acc ++ (f.colNames.filter (fun c => ¬ c ∈ acc))) acc
  | [], _, _ => fun h => h
  | f :: rest, acc, c => by
    intro h
    exact mem_foldl_union_acc rest _ c (List.mem_append_left _ h)

lemma mem_foldl_union : ∀ (fs : List Frame) (acc : List String) (f : Frame)
    (c : String), f ∈ fs → c ∈ f.colNames →
    c ∈ fs.foldl (fun acc f => acc ++ (f.colNames.filter (fun c => ¬ c ∈ acc))) acc
  | [], _, _, _ => by intro h _; cases h
  | g :: rest, acc, f, c => by
    intro hf hc
    rcases List.mem_cons.mp hf with rfl | hf'
    · apply mem_foldl_union_acc rest _ c
      by_cases hacc : c ∈ acc
      · exact List.mem_append_left _ hacc
      · refine List.mem_append_right _ ?_
        rw [List.mem_filter]
        exact ⟨hc, by simpa using hacc⟩
    · exact mem_foldl_union rest _ f c hf' hc

lemma mem_unionColNames (fs : List Frame) (f : Frame) (c : String)
    (hf : f ∈ fs) (hc : c ∈ f.colNames) : c ∈ unionColNames fs :=
  mem_foldl_union fs [] f c hf hc

lemma hasA_iff_mem : ∀ (l : List (String × List Val)) (c : String),
    hasA l c = true ↔ c ∈ l.map Prod.fst
  | [], c => by simp [hasA]
  | p :: rest, c => by
    by_cases hp : p.1 = c
    · simp [hasA, hp]
    · rw [show hasA (p :: rest) c = hasA rest c from by simp [hasA, hp],
        hasA_iff_mem rest c, List.map_cons]
      constructor
      · intro hm
        exact List.mem_cons_of_mem _ hm
      · intro hm
        rcases List.mem_cons.mp hm with e | hm'
        · exact absurd e.symm hp
        · exact hm'

lemma Frame.getColOrNan_of_has (f : Frame) (c : String) (h : f.hasCol c = true) :
    f.getColOrNan c = f.getCol c := by
  unfold Frame.getColOrNan
  rw [if_pos h]

lemma getCol_concatFrames (fs : List Frame) (c : String)
    (h : c ∈ unionColNames fs) :
    (concatFrames fs).getCol c = fs.flatMap (fun f => f.getColOrNan c) := by
  unfold concatFrames Frame.getCol
  exact getA_map_pair (unionColNames fs) _ c h

lemma addPatientId_spec (name : String) (df : Frame) :
    (addPatientId name df).hasCol "patient_id" = true ∧
    (addPatientId name df).getCol "patient_id" =
      (if df.hasCol "patient_id" = true then df.getCol "patient_id"
       else (List.range df.nRows).map (fun i => Val.s (name ++ "_" ++ toString i))) := by
  unfold addPatientId
  by_cases h : df.hasCol "patient_id" = true
  · rw [if_pos h, if_pos h]
    exact ⟨h, rfl⟩
  · rw [if_neg h, if_neg h]
    exact ⟨Frame.hasCol_setCol_self _ _ _, Frame.getCol_setCol_self _ _ _⟩

lemma fillIntCol_patient (c : String) (lo hi : Int) (df : Frame) (s : NPRandom)
    (hne : ("patient_id" : String) ≠ c) :
    (fillIntCol c lo hi df s).1.hasCol "patient_id" = df.hasCol "patient_id" ∧
    (fillIntCol c lo hi df s).1.getCol "patient_id" = df.getCol "patient_id" := by
  unfold fillIntCol
  by_cases h : df.hasCol c = true
  · rw [if_pos h]
    exact ⟨rfl, rfl⟩
  · rw [if_neg h]
    exact ⟨Frame.hasCol_setCol_ne _ _ _ _ hne, Frame.getCol_setCol_ne _ _ _ _ hne⟩

lemma processForMerge_patient (name : String) (df : Frame) (st : NPRandom) :
    (processForMerge name df st).1.hasCol "patient_id" = true ∧
    (processForMerge name df st).1.getCol "patient_id" =
      (if df.hasCol "patient_id" = true then df.getCol "patient_id"
       else (List.range df.nRows).map (fun i => Val.s (name ++ "_" ++ toString i))) := by
  obtain ⟨h1, g1⟩ := addPatientId_spec name df
  obtain ⟨h2, g2⟩ := fillIntCol_patient "age" 18 80 (addPatientId name df) st
    (by decide)
  obtain ⟨h3, g3⟩ := fillIntCol_patient "cost" 1000 50000
    (fillIntCol "age" 18 80 (addPatientId name df) st).1
    (fillIntCol "age" 18 80 (addPatientId name df) st).2 (by decide)
  unfold processForMerge
  constructor
  · rw [h3, h2]
    exact h1
  · rw [g3, g2]
    exact g1

lemma processAll_patient : ∀ (frames : List (String × Frame)) (s : NPRandom),
    ((processAllForMerge frames s).flatMap (fun f => f.getColOrNan "patient_id") =
      frames.flatMap (fun p =>
        if p.2.hasCol "patient_id" = true then p.2.getCol "patient_id"
        else (List.range p.2.nRows).map (fun i => Val.s (p.1 ++ "_" ++ toString i)))) ∧
    (∀ f, f ∈ processAllForMerge frames s → f.hasCol "patient_id" = true)
  | [], s => by simp [processAllForMerge]
  | p :: rest, s => by
    obtain ⟨ih1, ih2⟩ := processAll_patient rest (processForMerge p.1 p.2 s).2
    obtain ⟨h1, g1⟩ := processForMerge_patient p.1 p.2 s
    constructor
    · simp only [processAllForMerge, List.flatMap_cons]
      rw [Frame.getColOrNan_of_has _ _ h1, g1, ih1]
    · intro f hf
      rcases List.mem_cons.mp hf with rfl | hf'
      · exact h1
      · exact ih2 f hf'

/-- C7. In `merge_datasets`, every input frame lacking a `patient_id`
column gets `patient_id = f"{name}_" + index` per row, and frames that
already have a `patient_id` column keep it unchanged in the merged
output. -/
theorem merge_patient_id_assignment (frames : List (String × Frame)) (s : NPRandom) :
    (mergeDatasets frames s).getCol "patient_id" =
      frames.flatMap (fun p =>
        if p.2.hasCol "patient_id" = true then p.2.getCol "patient_id"
        else (List.range p.2.nRows).map (fun i => Val.s (p.1 ++ "_" ++ toString i))) := by
  unfold mergeDatasets
  rw [Frame.getCol_setCol_ne _ _ _ _ (by decide)]
  cases frames with
  | nil => rfl
  | cons hd tl =>
    obtain ⟨hflat, _⟩ := processAll_patient (hd :: tl) s
    rw [getCol_concatFrames]
    · exact hflat
    · have hmem0 : (processForMerge hd.1 hd.2 s).1 ∈
          processAllForMerge (hd :: tl) s := by
        simp [processAllForMerge]
      apply mem_unionColNames _ _ _ hmem0
      exact (hasA_iff_mem _ _).mp (processForMerge_patient hd.1 hd.2 s).1

/-! ## Claims -/

/-- C1. For every integer `queue_length`,
`ManageAgent._calculate_confidence(queue_length)` returns exactly
`max(0.6, min(0.95, 1 - queue_length/20))`, and this value is the
`'confidence'` field of the dict returned by `predict_wait_time`. -/
theorem calculate_confidence_formula (q : Int) (qs : QueueState) (raw : ℚ) :
    calculateConfidence q = max (6/10 : ℚ) (min (95/100 : ℚ) (1 - (q : ℚ) / 20)) ∧
    (predictWaitTime qs raw).confidence = calculateConfidence qs.queue_length :=
  ⟨rfl, rfl⟩

/-- C9. For every queue state with the six required numeric fields, the
`'predicted_wait_time'` returned by `ManageAgent.predict_wait_time` is an
integer in `[5, 180]` regardless of the model's raw prediction, and
`'estimated_wait_time'` is exactly that integer followed by `" minutes"`. -/
theorem predicted_wait_time_clamped (qs : QueueState) (raw : ℚ) :
    5 ≤ (predictWaitTime qs raw).predicted_wait_time ∧
    (predictWaitTime qs raw).predicted_wait_time ≤ 180 ∧
    (predictWaitTime qs raw).estimated_wait_time =
      toString (predictWaitTime qs raw).predicted_wait_time ++ " minutes" := by
  have h0 : (0:ℚ) ≤ max 5 (min raw 180) := le_trans (by norm_num) (le_max_left _ _)
  have h5 : (5:ℚ) ≤ max 5 (min raw 180) := le_max_left _ _
  have h180 : max 5 (min raw 180) ≤ 180 := max_le (by norm_num) (min_le_right _ _)
  have hp : pyInt (max 5 (min raw 180)) = ⌊max 5 (min raw 180)⌋ := by
    rw [pyInt, if_pos h0]
  refine ⟨?_, ?_, rfl⟩
  · show (5:Int) ≤ pyInt (max 5 (min raw 180))
    rw [hp]
    exact Int.le_floor.mpr (by exact_mod_cast h5)
  · show pyInt (max 5 (min raw 180)) ≤ (180:Int)
    rw [hp]
    have hf := Int.floor_le_floor (α := ℚ) h180
    simpa using hf

/-- C8. `ManageAgent._generate_synthetic_data` calls `np.random.seed(42)`
before any random draw, so two invocations with the same `n_samples`
return identical queue and triage dataframes, independent of any prior
PRNG state. -/
theorem generate_synthetic_data_deterministic (n : Nat) (s s' : NPRandom) :
    (generateSyntheticData n s).1 = (generateSyntheticData n s').1 ∧
    (generateSyntheticData n s).2.1 = (generateSyntheticData n s').2.1 :=
  ⟨rfl, rfl⟩

/-- C10. Every `final_triage_level` produced by
`ManageAgent._generate_synthetic_data` lies in `[1, 5]`, is at least the
row's sampled `urgency_level`, and equals 5 whenever the row's
`consciousness_level` is `'Unresponsive'`. -/
theorem synthetic_triage_level_invariants (n : Nat) (rng : NPRandom) (i : Nat)
    (h : i < n) :
    1 ≤ (syntheticTriage n rng).final_triage_level.getD i 0 ∧
    (syntheticTriage n rng).final_triage_level.getD i 0 ≤ 5 ∧
    (syntheticTriage n rng).urgency_level.getD i 0 ≤
      (syntheticTriage n rng).final_triage_level.getD i 0 ∧
    ((syntheticTriage n rng).consciousness_level.getD i "" = "Unresponsive" →
      (syntheticTriage n rng).final_triage_level.getD i 0 = 5) := by
  unfold syntheticTriage generateSyntheticData
  dsimp only [randintArr, uniformArr, choiceArr, boolArr, normalArr,
    choiceNoReplace, npSeed]
  simp only [getD_range_map n i h]
  exact computeTriageLevel_bounds _ _ _ _ _ (by omega) (by omega)

/-- Witness for C10 at `n = 3`, `i = 0`. -/
theorem synthetic_triage_level_invariants_witness :
    1 ≤ (syntheticTriage 3 (npSeed 0)).final_triage_level.getD 0 0 ∧
    (syntheticTriage 3 (npSeed 0)).final_triage_level.getD 0 0 ≤ 5 ∧
    (syntheticTriage 3 (npSeed 0)).urgency_level.getD 0 0 ≤
      (syntheticTriage 3 (npSeed 0)).final_triage_level.getD 0 0 ∧
    ((syntheticTriage 3 (npSeed 0)).consciousness_level.getD 0 "" = "Unresponsive" →
      (syntheticTriage 3 (npSeed 0)).final_triage_level.getD 0 0 = 5) :=
  synthetic_triage_level_invariants 3 (npSeed 0) 0 (by decide)

/-- C5. Whenever `self.model is None`, `fine_tune_classification` returns
simulated `np.random.uniform` metrics: accuracy in `[0.85, 0.97]`, f1 in
`[0.80, 0.95]`, precision in `[0.75, 0.90]`, recall in `[0.80, 0.95]`,
independent of the training data. -/
theorem simulated_metrics_bounds (td td' vd vd' : TaskData)
    (rm rm' : ℚ × ℚ × ℚ × ℚ) (s : NPRandom) :
    (85/100 : ℚ) ≤ (fineTuneClassification false td vd rm s).1.1 ∧
    (fineTuneClassification false td vd rm s).1.1 ≤ 97/100 ∧
    (80/100 : ℚ) ≤ (fineTuneClassification false td vd rm s).1.2.1 ∧
    (fineTuneClassification false td vd rm s).1.2.1 ≤ 95/100 ∧
    (75/100 : ℚ) ≤ (fineTuneClassification false td vd rm s).1.2.2.1 ∧
    (fineTuneClassification false td vd rm s).1.2.2.1 ≤ 90/100 ∧
    (80/100 : ℚ) ≤ (fineTuneClassification false td vd rm s).1.2.2.2 ∧
    (fineTuneClassification false td vd rm s).1.2.2.2 ≤ 95/100 ∧
    fineTuneClassification false td vd rm s = fineTuneClassification false td' vd' rm' s := by
  refine ⟨?_, ?_, ?_, ?_, ?_, ?_, ?_, ?_, rfl⟩
  · exact (npUniform_bounds (85/100) (97/100) s (by norm_num)).1
  · exact le_of_lt (npUniform_bounds (85/100) (97/100) s (by norm_num)).2
  · exact (npUniform_bounds (80/100) (95/100) _ (by norm_num)).1
  · exact le_of_lt (npUniform_bounds (80/100) (95/100) _ (by norm_num)).2
  · exact (npUniform_bounds (75/100) (90/100) _ (by norm_num)).1
  · exact le_of_lt (npUniform_bounds (75/100) (90/100) _ (by norm_num)).2
  · exact (npUniform_bounds (80/100) (95/100) _ (by norm_num)).1
  · exact le_of_lt (npUniform_bounds (80/100) (95/100) _ (by norm_num)).2

/-- C6. `VertexAITrainer.predict_with_endpoint` issues exactly one
`requests.post`, always with `timeout=30` and no retry; it never raises:
a non-200 response yields `"Error: {status_code} - {text}"` and a raised
exception yields `"Error generating response: {e}"`. -/
theorem endpoint_single_post_spec (prompt token : String)
    (post : HttpRequest → Except String HttpResponse) :
    (predictWithEndpoint prompt token post).2 =
      [{ url := vertexUrl, promptSent := prompt, bearer := token, timeout := 30 }] ∧
    (∀ r, r ∈ (predictWithEndpoint prompt token post).2 → r.timeout = 30) ∧
    (∀ e, post { url := vertexUrl, promptSent := prompt, bearer := token, timeout := 30 } =
        Except.error e →
      (predictWithEndpoint prompt token post).1 = "Error generating response: " ++ e) ∧
    (∀ resp, post { url := vertexUrl, promptSent := prompt, bearer := token, timeout := 30 } =
        Except.ok resp → ¬ resp.statusCode = 200 →
      (predictWithEndpoint prompt token post).1 =
        "Error: " ++ toString resp.statusCode ++ " - " ++ resp.text) := by
  refine ⟨rfl, ?_, ?_, ?_⟩
  · intro r hr
    have hmem : r ∈
        [({ url := vertexUrl, promptSent := prompt, bearer := token, timeout := 30 } :
          HttpRequest)] := hr
    rcases List.mem_singleton.mp hmem with rfl
    rfl
  · intro e he
    dsimp only [predictWithEndpoint]
    rw [he]
  · intro resp hre h200
    dsimp only [predictWithEndpoint]
    rw [hre]
    dsimp only
    rw [if_neg h200]

/-- Witness for C6: a post that raises produces the error string, one
request issued. -/
theorem endpoint_single_post_witness :
    (predictWithEndpoint "p" "t" postFail).2 =
      [{ url := vertexUrl, promptSent := "p", bearer := "t", timeout := 30 }] ∧
    (predictWithEndpoint "p" "t" postFail).1 = "Error generating response: boom" :=
  ⟨(endpoint_single_post_spec "p" "t" postFail).1,
   (endpoint_single_post_spec "p" "t" postFail).2.2.1 "boom" rfl⟩

/-- C4. `run_bias_analysis` and `MakeAgent.speech_to_text` never propagate
an exception (they are total functions of the oracle outcome here): a
caught internal exception `e` yields the dict `{'error': str(e)}`, and a
successful run returns a dict with no `'error'` key. -/
theorem error_flattening (t e : String) (r : SpeechInner) (df : Frame) (e' : String) :
    ((speechToText true (Except.ok r) t).map Prod.fst =
      ["original_transcript", "validated_text", "is_accurate",
       "confidence_score", "timestamp"]) ∧
    ("error" ∉ (speechToText true (Except.ok r) t).map Prod.fst) ∧
    (speechToText true (Except.error e) t = [("error", Val.s e)]) ∧
    (speechToText false (Except.ok r) t =
      [("error", Val.s "Speech recognition model not loaded")]) ∧
    ("error" ∉ (runBiasAnalysis df (Except.ok ())).map Prod.fst) ∧
    (runBiasAnalysis df (Except.error e') = [("error", BiasEntry.msg e')]) := by
  refine ⟨rfl, ?_, rfl, rfl, ?_, rfl⟩
  · intro hmem
    have h : "error" ∈ (["original_transcript", "validated_text", "is_accurate",
        "confidence_score", "timestamp"] : List String) := hmem
    exact absurd h (by decide)
  · intro hmem
    simp only [runBiasAnalysis] at hmem
    rw [List.mem_map] at hmem
    obtain ⟨p, hp, hfst⟩ := hmem
    rw [List.mem_filterMap] at hp
    obtain ⟨a, ha, hfa⟩ := hp
    by_cases hca : df.hasCol a = true
    · rw [if_pos hca] at hfa
      obtain rfl := Option.some.inj hfa
      have ha2 : a = "error" := hfst
      rw [ha2] at ha
      exact absurd ha (by decide)
    · rw [if_neg hca] at hfa
      exact Option.noConfusion hfa

/-- C3. `apply_smote_augmentation` calls `SMOTE.fit_resample` exactly once
per invocation (one entry in `calls`); if that call raises, the function
returns its input dataframe unchanged with `smote_applied = False`, and
step11's `apply_smote_correction` likewise returns the original dataframe
on failure. -/
theorem smote_single_call_and_failure (df : Frame)
    (smote : SmoteCall → Except String SmoteResult)
    (h : df.hasCol "caste" = true) :
    (∃ out, applySmoteAugmentation df smote = Except.ok out ∧
      out.calls.length = 1 ∧
      (∀ inp e, inp ∈ out.calls → smote inp = Except.error e →
        out.frame = df ∧ out.applied = false)) ∧
    (∀ (df' : Frame) (e : String), applySmoteCorrection df' (Except.error e) = df') := by
  constructor
  · unfold applySmoteAugmentation
    rw [if_neg (by simp [h])]
    rcases hsm : smote (smoteCallOf df) with e | res
    · refine ⟨_, rfl, rfl, ?_⟩
      intro inp e' _ _
      exact ⟨rfl, rfl⟩
    · refine ⟨_, rfl, rfl, ?_⟩
      intro inp e' hin hse
      rw [List.mem_singleton] at hin
      rw [hin, hsm] at hse
      exact Except.noConfusion hse
  · intro df' e
    unfold applySmoteCorrection
    split
    · rfl
    · rfl

/-- Witness for C3: a concrete frame with a `caste` column and a SMOTE
oracle that raises. -/
theorem smote_single_call_witness :
    (∃ out, applySmoteAugmentation dfSmall smoteFail = Except.ok out ∧
      out.calls.length = 1 ∧
      (∀ inp e, inp ∈ out.calls → smoteFail inp = Except.error e →
        out.frame = dfSmall ∧ out.applied = false)) ∧
    (∀ (df' : Frame) (e : String), applySmoteCorrection df' (Except.error e) = df') :=
  smote_single_call_and_failure dfSmall smoteFail (by decide)

/-- C2 counterexample: in `dfBias` the protected group `SC` holds 5% of
records, which is not below the configured 3% `target_threshold`, yet
step10's `_analyze_bias` flags it as a bias issue (its hardcoded
underrepresentation cut-off is 10%). -/
theorem bias_threshold_counterexample :
    ("SC", BiasKind.underrepresented) ∈ biasIssuesOf (analyzeBias dfBias "caste") ∧
    ¬ (((((valueCounts (dfBias.getCol "caste")).lookup (Val.s "SC")).getD 0 : ℚ) /
        ((dfBias.getCol "caste").length : ℚ)) < targetThreshold) := by
  have hlk : (valueCounts (dfBias.getCol "caste")).lookup (Val.s "SC") = some 1 := by
    decide
  have hlen : (dfBias.getCol "caste").length = 20 := by decide
  constructor
  · unfold analyzeBias
    rw [if_neg (by decide)]
    unfold biasIssuesOf
    dsimp only
    refine List.mem_filterMap.mpr ⟨"SC", by decide, ?_⟩
    rw [hlk]
    dsimp only
    rw [hlen]
    rw [if_pos (by norm_num)]
  · rw [hlk, hlen]
    unfold targetThreshold
    norm_num

/-- C2 amended: step10's `_analyze_bias` computes `value_counts()` over the
column and flags a protected group as underrepresented exactly when its
share is below a hardcoded 10% (and as overrepresented above 50%),
ignoring `bias_config`'s 3% `target_threshold`; step11's `analyze_bias`
warns a value exactly when its normalized share falls below its own 0.03
`bias_threshold`.  No statistical test is applied: both are plain
threshold checks on value counts. -/
theorem bias_flagging_thresholds (df : Frame) (attrName g : String) (v : Val) :
    ((g, BiasKind.underrepresented) ∈ biasIssuesOf (analyzeBias df attrName) ↔
      (g ∈ protectedGroups attrName ∧
       ∃ c, (valueCounts (df.getCol attrName)).lookup (Val.s g) = some c ∧
         ((c : ℚ) / ((df.getCol attrName).length : ℚ)) * 100 < 10)) ∧
    ((g, BiasKind.overrepresented) ∈ biasIssuesOf (analyzeBias df attrName) ↔
      (g ∈ protectedGroups attrName ∧
       ∃ c, (valueCounts (df.getCol attrName)).lookup (Val.s g) = some c ∧
         ¬ (((c : ℚ) / ((df.getCol attrName).length : ℚ)) * 100 < 10) ∧
         ((c : ℚ) / ((df.getCol attrName).length : ℚ)) * 100 > 50)) ∧
    (v ∈ underrepresentedWarnings (df.getCol "caste") biasThreshold11 ↔
      ∃ c, (v, c) ∈ valueCounts (df.getCol "caste") ∧
        ((c : ℚ) / ((df.getCol "caste").length : ℚ)) < biasThreshold11) := by
  refine ⟨?_, ?_, ?_⟩
  · by_cases hcol : df.hasCol attrName = true
    · unfold analyzeBias
      rw [if_neg (by simp [hcol])]
      unfold biasIssuesOf
      dsimp only
      rw [List.mem_filterMap]
      constructor
      · rintro ⟨a, ha, hfa⟩
        rcases hl : (valueCounts (df.getCol attrName)).lookup (Val.s a) with _ | c
        · rw [hl] at hfa
          exact absurd hfa (by simp)
        · rw [hl] at hfa
          dsimp only at hfa
          split_ifs at hfa with h10 h50
          · have hag : a = g := congrArg Prod.fst (Option.some.inj hfa)
            subst hag
            exact ⟨ha, c, hl, h10⟩
          · exact absurd (show BiasKind.overrepresented = BiasKind.underrepresented from
              congrArg Prod.snd (Option.some.inj hfa)) (by decide)
      · rintro ⟨hg, c, hl, hpct⟩
        refine ⟨g, hg, ?_⟩
        rw [hl]
        dsimp only
        rw [if_pos hpct]
    · have hf : df.hasCol attrName = false := by
        simpa using hcol
      unfold analyzeBias
      rw [if_pos hf]
      unfold biasIssuesOf
      constructor
      · intro hmem
        exact absurd hmem (by simp)
      · rintro ⟨-, c, hl, -⟩
        rw [show df.getCol attrName = [] from getA_nil_of_not_has df.cols attrName hf] at hl
        exact Option.noConfusion hl
  · by_cases hcol : df.hasCol attrName = true
    · unfold analyzeBias
      rw [if_neg (by simp [hcol])]
      unfold biasIssuesOf
      dsimp only
      rw [List.mem_filterMap]
      constructor
      · rintro ⟨a, ha, hfa⟩
        rcases hl : (valueCounts (df.getCol attrName)).lookup (Val.s a) with _ | c
        · rw [hl] at hfa
          exact absurd hfa (by simp)
        · rw [hl] at hfa
          dsimp only at hfa
          split_ifs at hfa with h10 h50
          · exact absurd (show BiasKind.underrepresented = BiasKind.overrepresented from
              congrArg Prod.snd (Option.some.inj hfa)) (by decide)
          · have hag : a = g := congrArg Prod.fst (Option.some.inj hfa)
            subst hag
            exact ⟨ha, c, hl, h10, h50⟩
      · rintro ⟨hg, c, hl, h10, h50⟩
        refine ⟨g, hg, ?_⟩
        rw [hl]
        dsimp only
        rw [if_neg h10, if_pos h50]
    · have hf : df.hasCol attrName = false := by
        simpa using hcol
      unfold analyzeBias
      rw [if_pos hf]
      unfold biasIssuesOf
      constructor
      · intro hmem
        exact absurd hmem (by simp)
      · rintro ⟨-, c, hl, -⟩
        rw [show df.getCol attrName = [] from getA_nil_of_not_has df.cols attrName hf] at hl
        exact Option.noConfusion hl
  · unfold underrepresentedWarnings
    rw [List.mem_filterMap]
    constructor
    · rintro ⟨⟨v', c⟩, hp, hfp⟩
      split_ifs at hfp with hlt
      obtain rfl := Option.some.inj hfp
      exact ⟨c, hp, hlt⟩
    · rintro ⟨c, hp, hlt⟩
      refine ⟨(v, c), hp, ?_⟩
      rw [if_pos hlt]

end MediOS
